import Mathlib

/-!
Formal model of `src/robotpywrapper/robotpy.py`.

The program is a thin CLI over a key-value configuration file (`.robotpy`)
plus external processes (pip, the robotpy installer).  We shallowly embed:

* the configuration (`configparser` state) as an association list of sections,
  each an association list of keys to string values, preserving insertion
  order as `configparser` does;
* directories as reversed segment lists (`[]` is the filesystem root,
  `["a"]` is `/a`, `["b","a"]` is `/a/b`);
* the outcomes of external processes as an `Env` oracle: pip install results,
  installer download/install results, and the parsed `pip freeze` listing
  (the external collaborators themselves are out of scope per the spec);
* process termination as an `Outcome`: `ok` (normal return), `fatalExit`
  (`sys.exit(1)` via `fatal()` or explicit `sys.exit(1)`), and `crash`
  (an unhandled Python exception such as `TypeError` or `KeyError`).

Python `str` comparison and `str.split` are re-implemented structurally over
character lists so that every definition evaluates inside the kernel.
-/

namespace RobotPy

/-- Outcome of running a piece of the tool: normal value, deliberate
`sys.exit(1)`, or an unhandled Python exception. -/
inductive Outcome (α : Type) where
  | ok : α → Outcome α
  | fatalExit : Outcome α
  | crash : Outcome α
deriving DecidableEq

/-- Sequencing that propagates `sys.exit(1)` and unhandled exceptions. -/
def Outcome.bind {α β : Type} : Outcome α → (α → Outcome β) → Outcome β
  | .ok a, f => f a
  | .fatalExit, _ => .fatalExit
  | .crash, _ => .crash

/-- One configuration section: keys to string values, in insertion order. -/
abbrev ConfigSection := List (String × String)

/-- A parsed `.robotpy` file: section names to sections, in insertion order,
mirroring `configparser.ConfigParser` state. -/
abbrev Config := List (String × ConfigSection)

/-- Lookup of a key in a section (first match; `configparser` keys are
unique). -/
def lookupKey : ConfigSection → String → Option String
  | [], _ => none
  | (k1, v1) :: rest, k => if k1 = k then some v1 else lookupKey rest k

/-- Python `key in section`. -/
def hasKey (s : ConfigSection) (k : String) : Bool :=
  (lookupKey s k).isSome

/-- Value of a key, defaulting to `""`; only used under a `hasKey` guard. -/
def getD (s : ConfigSection) (k : String) : String :=
  (lookupKey s k).getD ""

/-- Python `section[key] = value`: replace in place, else append. -/
def setKey : ConfigSection → String → String → ConfigSection
  | [], k, v => [(k, v)]
  | (k1, v1) :: rest, k, v =>
    if k1 = k then (k, v) :: rest else (k1, v1) :: setKey rest k v

/-- Python `del section[key]` (the key occurs at most once). -/
def delKey : ConfigSection → String → ConfigSection
  | [], _ => []
  | (k1, v1) :: rest, k =>
    if k1 = k then rest else (k1, v1) :: delKey rest k

/-- Lookup of a section by name (first match; section names are unique). -/
def getSection : Config → String → Option ConfigSection
  | [], _ => none
  | (g1, s1) :: rest, g => if g1 = g then some s1 else getSection rest g

/-- Python `group in config`. -/
def hasSection (c : Config) (g : String) : Bool :=
  (getSection c g).isSome

/-- Python `config[group] = mapping`: replace the section in place, else
append it. -/
def setSection : Config → String → ConfigSection → Config
  | [], g, s => [(g, s)]
  | (g1, s1) :: rest, g, s =>
    if g1 = g then (g, s) :: rest else (g1, s1) :: setSection rest g s

/-- Python `del config[group]`. -/
def delSection : Config → String → Config
  | [], _ => []
  | (g1, s1) :: rest, g =>
    if g1 = g then rest else (g1, s1) :: delSection rest g

/-- Python dict lookup over parsed `pip freeze` pairs: later entries win,
as in the dict comprehension of `load_packages` (lines 86-88). -/
def dictLookup (l : List (String × String)) (k : String) : Option String :=
  lookupKey l.reverse k

/-- Python code-point-lexicographic string comparison, structurally over the
character lists so it evaluates in the kernel. -/
def charListLt : List Char → List Char → Bool
  | [], [] => false
  | [], _ :: _ => true
  | _ :: _, [] => false
  | a :: as, b :: bs =>
    if a < b then true else if b < a then false else charListLt as bs

/-- Python `a < b` on version strings (lines 115 and 250 compare plain
strings). -/
def pyStrLt (a b : String) : Bool :=
  charListLt a.data b.data

/-- Python `str.split(sep)` for a single-character separator, structurally
over the character list. -/
def splitCharList (sep : Char) : List Char → List (List Char)
  | [] => [[]]
  | c :: rest =>
    let r := splitCharList sep rest
    if c = sep then [] :: r
    else
      match r with
      | [] => [[c]]
      | h :: t => (c :: h) :: t

/-- Python `field.split(".")` (line 273). -/
def splitDots (s : String) : List String :=
  (splitCharList (Char.ofNat 46) s.data).map (fun cs => String.mk cs)

/-- Python `".".join(parts)` (line 274). -/
def joinDots : List String → String
  | [] => ""
  | [s] => s
  | s :: t :: rest => s ++ "." ++ joinDots (t :: rest)

/-- Results of the external collaborators for one process invocation: the
package manager and the robotpy installer, treated as opaque oracles. -/
structure Env where
  pipInstallOk : String → Bool
  rpDownloadOk : String → Bool
  rpInstallOk : List String → Bool
  rpDownloadPythonOk : Bool
  freezeOk : Bool
  freeze : List (String × String)
  mainDeployOk : String → Bool

/-- Predicate `is_robotpy_addon` (lines 30-31). -/
def is_robotpy_addon (name : String) : Bool :=
  name ∈ ["ctre", "navx", "photonvision", "pathplannerlib", "rev",
          "apriltag", "commands2", "commands-v2", "cscore", "romi", "sim"]

/-- Function `format_robotpy_addon` (lines 33-36). -/
def format_robotpy_addon (name : String) : String :=
  "robotpy-" ++ (if name = "commands2" then "commands-v2" else name)

/-- Add-on shorthand expansion applied by `initialize` and `install`
(lines 196 and 219). -/
def addonName (n : String) : String :=
  if is_robotpy_addon n then format_robotpy_addon n else n

/-- Function `move_to_robotpy_dir` (lines 64-68).  Directories are reversed
segment lists; `[]` is the filesystem root; `hasMarker d` is
`os.path.isfile(".robotpy")` in directory `d`.  The loop checks the marker,
then `os.chdir("..")`, then calls `fatal` as soon as the new working
directory is the filesystem root — before the marker of the root itself is
ever tested.  `some d` is success with final working directory `d`; `none`
is the fatal exit. -/
def move_to_robotpy_dir (hasMarker : List String → Bool) :
    List String → Option (List String)
  | [] => if hasMarker [] then some [] else none
  | [x] => if hasMarker [x] then some [x] else none
  | x :: y :: rest =>
    if hasMarker (x :: y :: rest) then some (x :: y :: rest)
    else move_to_robotpy_dir hasMarker (y :: rest)

/-- Function `install_package` (lines 93-117): for each package, upgrade it
via pip (skip on failure); when `download` is set, pre-download it for the
robot (skip on failure), refresh the installed-package listing (fatal when
`pip freeze` fails, line 84), and record the freshly resolved version in the
`requirements` section only when the package is unrecorded or the new
version compares strictly newer (line 115).  `config["requirements"]`
(line 115) raises `KeyError` when the section is absent, as does
`packages[pkg]` (lines 115-116) when the package is missing from the
listing. -/
def install_package (env : Env) (download : Bool) :
    List String → Config → Outcome Config
  | [], c => .ok c
  | pkg :: rest, c =>
    if env.pipInstallOk pkg = false then install_package env download rest c
    else if download = false then install_package env download rest c
    else if env.rpDownloadOk pkg = false then install_package env download rest c
    else if env.freezeOk = false then .fatalExit
    else
      match getSection c "requirements" with
      | none => .crash
      | some req =>
        match dictLookup env.freeze pkg with
        | none => .crash
        | some v =>
          if !hasKey req pkg || pyStrLt (getD req pkg) v then
            install_package env download rest
              (setSection c "requirements" (setKey req pkg v))
          else install_package env download rest c

/-- Handler `remove` (lines 200-211), after `move_to_robotpy_dir`: refuse
the base package with a non-fatal error, delete tracked packages, report
untracked ones.  `pkg in config["requirements"]` (line 208) raises
`KeyError` when the section is absent. -/
def remove : List String → Config → Outcome Config
  | [], c => .ok c
  | pkg :: rest, c =>
    if pkg = "robotpy" then remove rest c
    else
      match getSection c "requirements" with
      | none => .crash
      | some req =>
        if hasKey req pkg then
          remove rest (setSection c "requirements" (delKey req pkg))
        else remove rest c

/-- Handler `install` (lines 213-221), after `move_to_robotpy_dir`: expand
add-on shorthand and delegate to `install_package` with the
`--[no-]download` flag. -/
def install (env : Env) (download : Bool) (pkgs : List String)
    (c : Config) : Outcome Config :=
  install_package env download (pkgs.map addonName) c

/-- Package list that `update` (lines 227-236) passes to installation:
an empty request defaults to the base package prepended to every tracked
requirement key, and every candidate is then filtered against the
`requirements` section. -/
def updatePkgs (pkgs0 : List String) (req : ConfigSection) : List String :=
  let pkgs := if pkgs0.isEmpty then "robotpy" :: req.map Prod.fst else pkgs0
  pkgs.filter (fun p => hasKey req p)

/-- Handler `update` (lines 224-238), after `move_to_robotpy_dir`.  Both the
default expansion (line 229) and the tracking check (line 233) subscript
`config["requirements"]`, raising `KeyError` when the section is absent. -/
def update (env : Env) (download : Bool) (pkgs0 : List String)
    (c : Config) : Outcome Config :=
  match getSection c "requirements" with
  | none => .crash
  | some req => install_package env download (updatePkgs pkgs0 req) c

/-- Flags of the `deploy` subcommand (lines 331-334). -/
structure DeployArgs where
  deploy_lib : Bool
  deploy_code : Bool

/-- Delta of tracked requirements to push (line 250): those absent from the
deployed snapshot or whose tracked version compares strictly newer. -/
def deployUpdates (deployed req : ConfigSection) : List String :=
  (req.map Prod.fst).filter
    (fun p => !hasKey deployed p || pyStrLt (getD deployed p) (getD req p))

/-- Library-deploy stage of `deploy` (lines 246-258):
`config["requirements.deployed"]` (line 247) and `config["requirements"]`
(line 248) raise `KeyError` for absent sections; otherwise the delta is
pushed via the installer (fatal on failure) whenever it is non-empty and
the deployed snapshot is replaced by the `requirements` section. -/
def deployLib (env : Env) (c : Config) : Outcome Config :=
  match getSection c "requirements.deployed" with
  | none => .crash
  | some deployed =>
    match getSection c "requirements" with
    | none => .crash
    | some req =>
      if (deployUpdates deployed req).isEmpty then .ok c
      else if env.rpInstallOk (deployUpdates deployed req) then
        .ok (setSection c "requirements.deployed" req)
      else .fatalExit

/-- Code-deploy stage of `deploy` (lines 260-263): invoke the configured
entry file with a `deploy` argument (fatal on failure);
`config["execution"]["main"]` (line 261) raises `KeyError` when either the
section or the key is absent. -/
def deployCode (env : Env) (c : Config) : Outcome Config :=
  match getSection c "execution" with
  | none => .crash
  | some ex =>
    match lookupKey ex "main" with
    | none => .crash
    | some m => if env.mainDeployOk m then .ok c else .fatalExit

/-- Handler `deploy` (lines 241-263), after `move_to_robotpy_dir`: the
library stage when `--no-lib` was not given, then the code stage when
`--no-code` was not given. -/
def deploy (env : Env) (args : DeployArgs) (c : Config) : Outcome Config :=
  Outcome.bind (if args.deploy_lib then deployLib env c else .ok c)
    (fun c1 => if args.deploy_code then deployCode env c1 else .ok c1)

/-- Arguments of the `config` subcommand (lines 338-342). -/
structure ConfigureArgs where
  field : String
  value : Option String
  clear : Bool

/-- Handler `configure` (lines 266-292), after `move_to_robotpy_dir`:
require a dotted field name (else error and `sys.exit(1)`), refuse the
`requirements` and `requirements.deployed` groups (error and
`sys.exit(1)`), then clear, set, or get.  Clearing a key that leaves its
group empty deletes the whole group (lines 284-285); getting only prints. -/
def configure (args : ConfigureArgs) (c : Config) : Outcome Config :=
  let parts := splitDots args.field
  if parts.length ≤ 1 then .fatalExit
  else
    let group := joinDots parts.dropLast
    let name := parts.getLastD ""
    if group = "requirements" ∨ group = "requirements.deployed" then .fatalExit
    else if args.clear then
      match getSection c group with
      | none => .ok c
      | some sec =>
        if hasKey sec name then
          let sec2 := delKey sec name
          if sec2.isEmpty then .ok (delSection c group)
          else .ok (setSection c group sec2)
        else .ok c
    else
      match args.value with
      | some v =>
        .ok (setSection c group (setKey ((getSection c group).getD []) name v))
      | none => .ok c

/-- Arguments of the `initialize` subcommand (lines 303-312) that affect the
configuration. -/
structure InitArgs where
  main : String
  host : Option String
  packages : List String

/-- Handler `initialize` (lines 121-197) from the point after the target
directory has been entered (line 131): `globalPackages` is the module-level
`packages` cache (line 78), still `None` unless `load_packages` ran earlier
in the process; `markerExists` is `os.path.isfile(".robotpy")` in the target
directory.  On a fresh project, line 138 subscripts that cache, raising
`TypeError` when it is `None` and `KeyError` when the base package is
missing from it; otherwise the fresh `requirements` section holds only the
base package.  The `execution` section is then overwritten, the `auth`
section recorded when a host was given, the runtime and base package
pre-downloaded (fatal on failure, lines 188-194), and the additionally
requested packages installed with download enabled (line 197).  Named after
the subcommand alias `init` (line 303) because `initialize` is reserved.
The marker branch (lines 134-143) is `initReqStep`; the rest of the handler
is the body below. -/
def initReqStep (globalPackages : Option (List (String × String)))
    (markerExists : Bool) (c : Config) : Outcome Config :=
  if markerExists then .ok c
  else
    match globalPackages with
    | none => .crash
    | some ps =>
      match dictLookup ps "robotpy" with
      | none => .crash
      | some v => .ok (setSection c "requirements" [("robotpy", v)])

/-- Handler `initialize` continued: see `initReqStep`. -/
def init (env : Env) (globalPackages : Option (List (String × String)))
    (markerExists : Bool) (args : InitArgs) (c : Config) : Outcome Config :=
  Outcome.bind (initReqStep globalPackages markerExists c) (fun c1 =>
    let c2 := setSection c1 "execution" [("main", args.main)]
    let c3 :=
      match args.host with
      | some h => setSection c2 "auth" [("hostname", h)]
      | none => c2
    if env.rpDownloadPythonOk = false then .fatalExit
    else if env.rpDownloadOk "robotpy" = false then .fatalExit
    else install_package env true (args.packages.map addonName) c3)

/-- Dispatch of a synthesized custom subcommand (lines 353-359): the
lambda at line 359 runs `shlex.split(commands[command]) + args.rest`, where
`command` is the loop variable captured by reference, so at call time it
holds the last key iterated over the `command` section; `shlex.split` is
modeled for quote-free command strings as whitespace splitting.  `none`
means the invoked name is not a registered custom command. -/
def customCommandArgv (commands : ConfigSection) (invoked : String)
    (rest : List String) : Option (List String) :=
  if hasKey commands invoked then
    match commands.getLast? with
    | some last =>
      some (((splitCharList (Char.ofNat 32) (getD commands last.1).data).map
        (fun cs => String.mk cs)).filter (fun t => !t.isEmpty) ++ rest)
    | none => none
  else none

/-- Built-in subcommands that begin with `move_to_robotpy_dir`. -/
inductive Cmd where
  | removeCmd (pkgs : List String)
  | configCmd (args : ConfigureArgs)
  | updateCmd (download : Bool) (pkgs : List String)
  | deployCmd (args : DeployArgs)

/-- Handler body of a located subcommand, on the cached configuration. -/
def runHandlerCore (env : Env) : Cmd → Config → Outcome Config
  | .removeCmd pkgs, c => remove pkgs c
  | .configCmd a, c => configure a c
  | .updateCmd dl pkgs, c => update env dl pkgs c
  | .deployCmd a, c => deploy env a c

/-- Function `main` (lines 345-367) for the located subcommands, over a
marker-file map `fs` (the parsed `.robotpy` content of each directory, or
`none` when absent).  Line 353 parses `.robotpy` in the starting working
directory — a missing file yields an empty configuration — and caches it;
the handler then walks to the project root and runs on that cached
configuration; on normal completion line 366 writes the full in-memory
configuration to `.robotpy` in the final working directory.  `ok` carries
the final working directory and the configuration written there; fatal
exits and crashes skip the write. -/
def mainRun (env : Env) (fs : List String → Option Config)
    (cwd0 : List String) (cmd : Cmd) : Outcome (List String × Config) :=
  let cfg := (fs cwd0).getD []
  match move_to_robotpy_dir (fun d => (fs d).isSome) cwd0 with
  | none => .fatalExit
  | some root =>
    match runHandlerCore env cmd cfg with
    | .ok cfg1 => .ok (root, cfg1)
    | .fatalExit => .fatalExit
    | .crash => .crash

/-- Oracle with every external call succeeding and a fixed `pip freeze`
listing, used to instantiate theorems at concrete inputs. -/
def envAll : Env :=
  { pipInstallOk := fun _ => true
    rpDownloadOk := fun _ => true
    rpInstallOk := fun _ => true
    rpDownloadPythonOk := true
    freezeOk := true
    freeze := [("robotpy", "1"), ("foo", "2")]
    mainDeployOk := fun _ => true }

/-- Marker-file map of a project rooted at `/proj` whose `.robotpy` tracks
the base package; the subdirectory `/proj/sub` has no marker file. -/
def fs0 : List String → Option Config :=
  fun p =>
    if p = ["proj"] then some [("requirements", [("robotpy", "1")])] else none

/-- Binding of the base package in the tracked `requirements` section. -/
def robotpyVersion (c : Config) : Option String :=
  lookupKey ((getSection c "requirements").getD []) "robotpy"

/-- Presence of the base package in the tracked `requirements` section. -/
def hasRobotpy (c : Config) : Bool :=
  hasKey ((getSection c "requirements").getD []) "robotpy"

theorem lookupKey_setKey_self (s : ConfigSection) (k v : String) :
    lookupKey (setKey s k v) k = some v := by
  induction s with
  | nil => simp [setKey, lookupKey]
  | cons kv rest ih =>
    by_cases h : kv.1 = k <;> simp [setKey, lookupKey, h, ih]

theorem lookupKey_setKey_ne (s : ConfigSection) (k v k1 : String)
    (h : k1 ≠ k) : lookupKey (setKey s k v) k1 = lookupKey s k1 := by
  induction s with
  | nil => simp [setKey, lookupKey, Ne.symm h]
  | cons kv rest ih =>
    by_cases h2 : kv.1 = k
    · subst h2; simp [setKey, lookupKey, Ne.symm h]
    · simp [setKey, lookupKey, h2, ih]

theorem lookupKey_delKey_ne (s : ConfigSection) (k k1 : String)
    (h : k1 ≠ k) : lookupKey (delKey s k) k1 = lookupKey s k1 := by
  induction s with
  | nil => simp [delKey]
  | cons kv rest ih =>
    by_cases h2 : kv.1 = k
    · subst h2; simp [delKey, lookupKey, Ne.symm h]
    · simp [delKey, lookupKey, h2, ih]

theorem hasKey_setKey_of_hasKey (s : ConfigSection) (k v k1 : String)
    (h : hasKey s k1 = true) : hasKey (setKey s k v) k1 = true := by
  by_cases h2 : k1 = k
  · subst h2; simp [hasKey, lookupKey_setKey_self]
  · simpa [hasKey, lookupKey_setKey_ne s k v k1 h2] using h

theorem hasKey_iff_mem (s : ConfigSection) (k : String) :
    hasKey s k = true ↔ k ∈ s.map Prod.fst := by
  induction s with
  | nil => simp [hasKey, lookupKey]
  | cons kv rest ih =>
    by_cases h : kv.1 = k
    · simp [hasKey, lookupKey, h]
    · simpa [hasKey, lookupKey, h, Ne.symm h] using ih

theorem getSection_setSection_self (c : Config) (g : String)
    (s : ConfigSection) : getSection (setSection c g s) g = some s := by
  induction c with
  | nil => simp [setSection, getSection]
  | cons gs rest ih =>
    by_cases h : gs.1 = g <;> simp [setSection, getSection, h, ih]

theorem getSection_setSection_ne (c : Config) (g g1 : String)
    (s : ConfigSection) (h : g1 ≠ g) :
    getSection (setSection c g s) g1 = getSection c g1 := by
  induction c with
  | nil => simp [setSection, getSection, Ne.symm h]
  | cons gs rest ih =>
    by_cases h2 : gs.1 = g
    · subst h2; simp [setSection, getSection, Ne.symm h]
    · simp [setSection, getSection, h2, ih]

theorem getSection_delSection_ne (c : Config) (g g1 : String)
    (h : g1 ≠ g) : getSection (delSection c g) g1 = getSection c g1 := by
  induction c with
  | nil => simp [delSection]
  | cons gs rest ih =>
    by_cases h2 : gs.1 = g
    · subst h2; simp [delSection, getSection, Ne.symm h]
    · simp [delSection, getSection, h2, ih]

theorem getSection_eq_none_of_not_mem (c : Config) (g : String)
    (h : g ∉ c.map Prod.fst) : getSection c g = none := by
  induction c with
  | nil => simp [getSection]
  | cons gs rest ih =>
    simp only [List.map_cons, List.mem_cons, not_or] at h
    simp [getSection, Ne.symm h.1, ih h.2]

theorem lookupKey_eq_none_of_not_mem (s : ConfigSection) (k : String)
    (h : k ∉ s.map Prod.fst) : lookupKey s k = none := by
  induction s with
  | nil => simp [lookupKey]
  | cons kv rest ih =>
    simp only [List.map_cons, List.mem_cons, not_or] at h
    simp [lookupKey, Ne.symm h.1, ih h.2]

theorem getSection_delSection_self (c : Config) (g : String)
    (hnd : (c.map Prod.fst).Nodup) :
    getSection (delSection c g) g = none := by
  induction c with
  | nil => simp [delSection, getSection]
  | cons gs rest ih =>
    simp only [List.map_cons, List.nodup_cons] at hnd
    by_cases h2 : gs.1 = g
    · subst h2
      simpa [delSection] using getSection_eq_none_of_not_mem rest gs.1 hnd.1
    · simpa [delSection, getSection, h2] using ih hnd.2

theorem suffix_antisymm {α : Type} {s d : List α}
    (h1 : s <:+ d) (h2 : d <:+ s) : s = d :=
  h1.eq_of_length (Nat.le_antisymm h1.length_le h2.length_le)

theorem move_self (hm : List String → Bool) (d : List String)
    (h : hm d = true) : move_to_robotpy_dir hm d = some d := by
  cases d with
  | nil => simp [move_to_robotpy_dir, h]
  | cons x t =>
    cases t with
    | nil => simp [move_to_robotpy_dir, h]
    | cons y r => simp [move_to_robotpy_dir, h]

theorem lookupKey_delKey_self (s : ConfigSection) (k : String)
    (hnd : (s.map Prod.fst).Nodup) : lookupKey (delKey s k) k = none := by
  induction s with
  | nil => simp [delKey, lookupKey]
  | cons kv rest ih =>
    simp only [List.map_cons, List.nodup_cons] at hnd
    by_cases h2 : kv.1 = k
    · subst h2
      simpa [delKey] using lookupKey_eq_none_of_not_mem rest kv.1 hnd.1
    · simp [delKey, lookupKey, h2, ih hnd.2]

theorem remove_preserves_robotpyVersion (pkgs : List String) :
    ∀ c c' : Config, remove pkgs c = .ok c' →
    robotpyVersion c' = robotpyVersion c := by
  induction pkgs with
  | nil =>
    intro c c' h
    simp only [remove] at h
    cases h
    rfl
  | cons pkg rest ih =>
    intro c c' h
    simp only [remove] at h
    by_cases hr : pkg = "robotpy"
    · rw [if_pos hr] at h
      exact ih c c' h
    · rw [if_neg hr] at h
      cases hg : getSection c "requirements" with
      | none => rw [hg] at h; simp at h
      | some req =>
        rw [hg] at h
        simp only [] at h
        by_cases hk : hasKey req pkg
        · rw [if_pos hk] at h
          have h2 := ih _ _ h
          rw [h2]
          unfold robotpyVersion
          rw [getSection_setSection_self, hg]
          simp [lookupKey_delKey_ne req pkg "robotpy" (Ne.symm hr)]
        · rw [if_neg hk] at h
          exact ih _ _ h

theorem remove_robotpy_only (c : Config) : remove ["robotpy"] c = .ok c := by
  simp [remove]

theorem install_package_preserves_hasRobotpy (env : Env) (download : Bool)
    (pkgs : List String) : ∀ c c' : Config,
    install_package env download pkgs c = .ok c' →
    hasRobotpy c = true → hasRobotpy c' = true := by
  induction pkgs with
  | nil =>
    intro c c' h hr
    simp only [install_package] at h
    cases h
    exact hr
  | cons pkg rest ih =>
    intro c c' h hr
    simp only [install_package] at h
    by_cases h1 : env.pipInstallOk pkg = false
    · rw [if_pos h1] at h; exact ih _ _ h hr
    · rw [if_neg h1] at h
      by_cases h2 : download = false
      · rw [if_pos h2] at h; exact ih _ _ h hr
      · rw [if_neg h2] at h
        by_cases h3 : env.rpDownloadOk pkg = false
        · rw [if_pos h3] at h; exact ih _ _ h hr
        · rw [if_neg h3] at h
          by_cases h4 : env.freezeOk = false
          · rw [if_pos h4] at h; simp at h
          · rw [if_neg h4] at h
            cases hg : getSection c "requirements" with
            | none => rw [hg] at h; simp at h
            | some req =>
              rw [hg] at h
              simp only [] at h
              cases hv : dictLookup env.freeze pkg with
              | none => rw [hv] at h; simp at h
              | some v =>
                rw [hv] at h
                simp only [] at h
                by_cases h5 : (!hasKey req pkg || pyStrLt (getD req pkg) v) = true
                · rw [if_pos h5] at h
                  refine ih _ _ h ?_
                  unfold hasRobotpy
                  rw [getSection_setSection_self]
                  apply hasKey_setKey_of_hasKey
                  unfold hasRobotpy at hr
                  rw [hg] at hr
                  exact hr
                · rw [if_neg h5] at h
                  exact ih _ _ h hr

theorem update_preserves_hasRobotpy (env : Env) (download : Bool)
    (pkgs0 : List String) (c c' : Config)
    (h : update env download pkgs0 c = .ok c')
    (hr : hasRobotpy c = true) : hasRobotpy c' = true := by
  unfold update at h
  cases hg : getSection c "requirements" with
  | none => rw [hg] at h; simp at h
  | some req =>
    rw [hg] at h
    simp only [] at h
    exact install_package_preserves_hasRobotpy env download _ c c' h hr

theorem configure_preserves_requirements (a : ConfigureArgs) (c c' : Config)
    (h : configure a c = .ok c') :
    getSection c' "requirements" = getSection c "requirements" ∧
    getSection c' "requirements.deployed" = getSection c "requirements.deployed" := by
  simp only [configure] at h
  by_cases h1 : (splitDots a.field).length ≤ 1
  · rw [if_pos h1] at h; simp at h
  · rw [if_neg h1] at h
    by_cases h2 : joinDots (splitDots a.field).dropLast = "requirements" ∨
        joinDots (splitDots a.field).dropLast = "requirements.deployed"
    · rw [if_pos h2] at h; simp at h
    · rw [if_neg h2] at h
      push_neg at h2
      by_cases h3 : a.clear
      · rw [if_pos h3] at h
        cases hg : getSection c (joinDots (splitDots a.field).dropLast) with
        | none => rw [hg] at h; simp only [] at h; cases h; exact ⟨rfl, rfl⟩
        | some sec =>
          rw [hg] at h
          simp only [] at h
          by_cases h4 : hasKey sec ((splitDots a.field).getLastD "")
          · rw [if_pos h4] at h
            by_cases h5 : (delKey sec ((splitDots a.field).getLastD "")).isEmpty
            · rw [if_pos h5] at h
              cases h
              exact ⟨getSection_delSection_ne c _ _ (Ne.symm h2.1),
                getSection_delSection_ne c _ _ (Ne.symm h2.2)⟩
            · rw [if_neg h5] at h
              cases h
              exact ⟨getSection_setSection_ne c _ _ _ (Ne.symm h2.1),
                getSection_setSection_ne c _ _ _ (Ne.symm h2.2)⟩
          · rw [if_neg h4] at h; cases h; exact ⟨rfl, rfl⟩
      · rw [if_neg h3] at h
        cases hv : a.value with
        | some v =>
          rw [hv] at h
          simp only [] at h
          cases h
          exact ⟨getSection_setSection_ne c _ _ _ (Ne.symm h2.1),
            getSection_setSection_ne c _ _ _ (Ne.symm h2.2)⟩
        | none => rw [hv] at h; simp only [] at h; cases h; exact ⟨rfl, rfl⟩

theorem deployLib_preserves_requirements (env : Env) (c c' : Config)
    (h : deployLib env c = .ok c') :
    getSection c' "requirements" = getSection c "requirements" := by
  unfold deployLib at h
  cases hd : getSection c "requirements.deployed" with
  | none => rw [hd] at h; simp at h
  | some deployed =>
    rw [hd] at h
    simp only [] at h
    cases hg : getSection c "requirements" with
    | none => rw [hg] at h; simp at h
    | some req =>
      rw [hg] at h
      simp only [] at h
      by_cases h1 : (deployUpdates deployed req).isEmpty
      · rw [if_pos h1] at h; cases h; exact hg
      · rw [if_neg h1] at h
        by_cases h2 : env.rpInstallOk (deployUpdates deployed req)
        · rw [if_pos h2] at h
          cases h
          rw [getSection_setSection_ne c "requirements.deployed" "requirements"
            req (by decide)]
          exact hg
        · rw [if_neg h2] at h; simp at h

theorem deployCode_ok_eq (env : Env) (c c' : Config)
    (h : deployCode env c = .ok c') : c' = c := by
  unfold deployCode at h
  cases hg : getSection c "execution" with
  | none => rw [hg] at h; simp at h
  | some ex =>
    rw [hg] at h
    simp only [] at h
    cases hm : lookupKey ex "main" with
    | none => rw [hm] at h; simp at h
    | some m =>
      rw [hm] at h
      simp only [] at h
      by_cases h1 : env.mainDeployOk m
      · rw [if_pos h1] at h; cases h; rfl
      · rw [if_neg h1] at h; simp at h

theorem deploy_preserves_requirements (env : Env) (a : DeployArgs)
    (c c' : Config) (h : deploy env a c = .ok c') :
    getSection c' "requirements" = getSection c "requirements" := by
  unfold deploy at h
  cases hs : (if a.deploy_lib then deployLib env c else .ok c) with
  | ok c1 =>
    rw [hs] at h
    simp only [Outcome.bind] at h
    have hc1 : getSection c1 "requirements" = getSection c "requirements" := by
      by_cases hl : a.deploy_lib
      · rw [if_pos hl] at hs
        exact deployLib_preserves_requirements env c c1 hs
      · rw [if_neg hl] at hs; cases hs; rfl
    by_cases hc : a.deploy_code
    · rw [if_pos hc] at h
      rw [deployCode_ok_eq env c1 c' h]
      exact hc1
    · rw [if_neg hc] at h; cases h; exact hc1
  | fatalExit => rw [hs] at h; simp [Outcome.bind] at h
  | crash => rw [hs] at h; simp [Outcome.bind] at h

theorem init_preserves_hasRobotpy (env : Env)
    (gp : Option (List (String × String))) (me : Bool) (a : InitArgs)
    (c c' : Config) (h : init env gp me a c = .ok c')
    (hr : hasRobotpy c = true) : hasRobotpy c' = true := by
  unfold init at h
  cases hs : initReqStep gp me c with
  | ok c1 =>
    rw [hs] at h
    simp only [Outcome.bind] at h
    have hc1 : hasRobotpy c1 = true := by
      unfold initReqStep at hs
      by_cases hm : me
      · rw [if_pos hm] at hs; cases hs; exact hr
      · rw [if_neg hm] at hs
        cases hgp : gp with
        | none => rw [hgp] at hs; simp at hs
        | some ps =>
          rw [hgp] at hs
          simp only [] at hs
          cases hv : dictLookup ps "robotpy" with
          | none => rw [hv] at hs; simp at hs
          | some v =>
            rw [hv] at hs
            simp only [] at hs
            cases hs
            unfold hasRobotpy
            rw [getSection_setSection_self]
            simp [hasKey, lookupKey]
    by_cases h1 : env.rpDownloadPythonOk = false
    · rw [if_pos h1] at h; simp at h
    · rw [if_neg h1] at h
      by_cases h2 : env.rpDownloadOk "robotpy" = false
      · rw [if_pos h2] at h; simp at h
      · rw [if_neg h2] at h
        refine install_package_preserves_hasRobotpy env true _ _ c' h ?_
        cases ha : a.host with
        | some hst =>
          simp only []
          unfold hasRobotpy
          rw [getSection_setSection_ne _ "auth" "requirements" _ (by decide),
            getSection_setSection_ne _ "execution" "requirements" _ (by decide)]
          exact hc1
        | none =>
          simp only []
          unfold hasRobotpy
          rw [getSection_setSection_ne _ "execution" "requirements" _ (by decide)]
          exact hc1
  | fatalExit => rw [hs] at h; simp [Outcome.bind] at h
  | crash => rw [hs] at h; simp [Outcome.bind] at h

/-- C1: the claim says that after `initialize` on a new project the
configuration holds `execution.main` and `requirements.robotpy`; on the
code, every fresh-project `initialize` crashes first: line 138 subscripts
the module-level installed-packages cache, which is still `None` because
`load_packages` has not run, raising `TypeError` before anything is
recorded.  For every environment, argument set and prior configuration,
the handler on a fresh project (no marker file, cache unset) crashes. -/
theorem C1_init_fresh_project_crashes (env : Env) (a : InitArgs)
    (c : Config) : init env none false a c = Outcome.crash := rfl

/-- C2 counterexample: the claim says handlers read the configuration
parsed from the marker file at the project root.  Invoked from the
markerless subdirectory `/proj/sub` of a project rooted at `/proj`, the
process parses `.robotpy` of the starting directory (absent, hence empty),
the handler mutates that empty configuration, and at exit it is written
over the root marker — losing the requirements tracked there. -/
theorem C2_config_not_from_project_root :
    mainRun envAll fs0 ["sub", "proj"]
      (.configCmd ⟨"execution.main", some "x.py", false⟩)
      = Outcome.ok (["proj"], [("execution", [("main", "x.py")])])
    ∧ fs0 ["proj"] = some [("requirements", [("robotpy", "1")])]
    ∧ getSection [("execution", [("main", "x.py")])] "requirements" = none := by
  decide

/-- C2 amended: the configuration is parsed exactly once from the marker
file of the starting working directory (absent file yielding an empty
configuration) and, on normal completion, written back exactly once to the
marker file of the final working directory; when the invocation starts at
the project root, the handler therefore operates on the root marker
contents and the result is written back to the root. -/
theorem C2_amended_load_save (env : Env) (fs : List String → Option Config)
    (cwd0 : List String) (cmd : Cmd) (c0 : Config) (h : fs cwd0 = some c0) :
    ∀ root cfg1, mainRun env fs cwd0 cmd = .ok (root, cfg1) →
      root = cwd0 ∧ runHandlerCore env cmd c0 = .ok cfg1 := by
  intro root cfg1 hrun
  unfold mainRun at hrun
  rw [move_self (fun d => (fs d).isSome) cwd0 (by simp [h])] at hrun
  simp only [] at hrun
  rw [h] at hrun
  simp only [Option.getD_some] at hrun
  cases hc : runHandlerCore env cmd c0 with
  | ok c2 =>
    rw [hc] at hrun
    simp only [] at hrun
    cases hrun
    exact ⟨rfl, rfl⟩
  | fatalExit => rw [hc] at hrun; simp at hrun
  | crash => rw [hc] at hrun; simp at hrun

/-- Witness for C2 amended: a run started at the project root operates on
the root marker contents and writes back to the root. -/
theorem C2_amended_load_save_witness :
    ["proj"] = ["proj"] ∧
    runHandlerCore envAll (.removeCmd ["x"]) [("requirements", [("robotpy", "1")])]
      = Outcome.ok [("requirements", [("robotpy", "1")])] :=
  C2_amended_load_save envAll fs0 ["proj"] (.removeCmd ["x"])
    [("requirements", [("robotpy", "1")])] (by decide) ["proj"]
    [("requirements", [("robotpy", "1")])] (by decide)

/-- C3: the claim (and the comment at lines 242-243 of the source) says
that with an empty or absent `requirements.deployed` section every tracked
requirement is pushed; the code instead raises `KeyError` at line 247 when
the section is absent — the state of every first deploy — so library
deploy crashes there instead of pushing anything. -/
theorem C3_deploy_missing_deployed_section_crashes :
    deploy envAll ⟨true, false⟩ [("requirements", [("robotpy", "1")])]
      = Outcome.crash
    ∧ hasSection [("requirements", [("robotpy", "1")])]
        "requirements.deployed" = false := by
  decide

/-- C4: the claim says each registered custom command invokes its own
command string.  The lambda at line 359 captures the loop variable by
reference, so every synthesized subcommand runs the command string of the
last entry of the `command` section: invoking `a` (whose own string is
`echoa`) runs `echob`, the string registered for `b`. -/
theorem C4_custom_command_runs_last_entry :
    customCommandArgv [("a", "echoa"), ("b", "echob")] "a" [] = some ["echob"]
    ∧ getD [("a", "echoa"), ("b", "echob")] "a" = "echoa"
    ∧ (["echob"] : List String) ≠ ["echoa"] := by
  decide

/-- C5: once the base package is tracked it stays tracked: `remove`
preserves the `robotpy` binding of `requirements` (and a request naming
only the base package leaves the configuration untouched), `configure`
never changes the `requirements` or `requirements.deployed` sections,
and the `install_package`, `update`, `deploy` and `initialize` handlers
all keep `robotpy` present in `requirements` whenever it was present
before. -/
theorem C5_robotpy_requirement_invariant :
    (∀ (pkgs : List String) (c c1 : Config), remove pkgs c = .ok c1 →
      robotpyVersion c1 = robotpyVersion c)
    ∧ (∀ c : Config, remove ["robotpy"] c = .ok c)
    ∧ (∀ (a : ConfigureArgs) (c c1 : Config), configure a c = .ok c1 →
      getSection c1 "requirements" = getSection c "requirements" ∧
      getSection c1 "requirements.deployed"
        = getSection c "requirements.deployed")
    ∧ (∀ (env : Env) (download : Bool) (pkgs : List String) (c c1 : Config),
      install_package env download pkgs c = .ok c1 →
      hasRobotpy c = true → hasRobotpy c1 = true)
    ∧ (∀ (env : Env) (download : Bool) (pkgs0 : List String) (c c1 : Config),
      update env download pkgs0 c = .ok c1 →
      hasRobotpy c = true → hasRobotpy c1 = true)
    ∧ (∀ (env : Env) (a : DeployArgs) (c c1 : Config),
      deploy env a c = .ok c1 →
      getSection c1 "requirements" = getSection c "requirements")
    ∧ (∀ (env : Env) (gp : Option (List (String × String))) (me : Bool)
      (a : InitArgs) (c c1 : Config), init env gp me a c = .ok c1 →
      hasRobotpy c = true → hasRobotpy c1 = true) :=
  ⟨remove_preserves_robotpyVersion,
   remove_robotpy_only,
   configure_preserves_requirements,
   install_package_preserves_hasRobotpy,
   update_preserves_hasRobotpy,
   deploy_preserves_requirements,
   init_preserves_hasRobotpy⟩

/-- Witness for C5: removing a tracked non-base package keeps the recorded
base-package version intact. -/
theorem C5_robotpy_requirement_invariant_witness :
    robotpyVersion [("requirements", [("robotpy", "1")])]
      = robotpyVersion [("requirements", [("robotpy", "1"), ("extra", "2")])] :=
  C5_robotpy_requirement_invariant.1 ["extra"]
    [("requirements", [("robotpy", "1"), ("extra", "2")])]
    [("requirements", [("robotpy", "1")])] (by decide)

/-- C6 counterexample: the claim says the locator succeeds whenever any
ancestor, including the filesystem root, holds the marker file.  With the
marker only at the root and the walk starting at `/a`, the loop calls
`fatal` upon entering the root — before testing the root for the marker —
so the locator fails even though an ancestor holds the marker. -/
theorem C6_root_marker_missed :
    move_to_robotpy_dir (fun d => d.isEmpty) ["a"] = none
    ∧ (fun (d : List String) => d.isEmpty) [] = true
    ∧ ([] : List String) <:+ ["a"] :=
  ⟨by decide, by decide, ⟨["a"], by simp⟩⟩

/-- C6 amended: the locator succeeds — leaving the working directory at
the nearest marker-bearing ancestor — exactly when the marker is in the
starting directory itself or in a non-root ancestor; the filesystem root
marker is found only when the root is the starting directory, and in every
other case the locator terminates the process fatally. -/
theorem C6_amended_locator (hm : List String → Bool) (d : List String) :
    ((move_to_robotpy_dir hm d).isSome = true ↔
      ∃ s, s <:+ d ∧ hm s = true ∧ (s ≠ [] ∨ d = []))
    ∧ (∀ e, move_to_robotpy_dir hm d = some e →
        e <:+ d ∧ hm e = true ∧
        ∀ s, s <:+ d → e <:+ s → s ≠ e → hm s = false) := by
  induction d with
  | nil =>
    constructor
    · by_cases hb : hm [] = true
      · rw [move_self hm [] hb]
        simp only [Option.isSome_some, true_iff]
        exact ⟨[], List.suffix_rfl, hb, Or.inr trivial⟩
      · have hnone : move_to_robotpy_dir hm [] = none := by
          simp [move_to_robotpy_dir, hb]
        rw [hnone]
        constructor
        · intro habs; simp at habs
        · rintro ⟨s, hs, hshm, -⟩
          rw [List.suffix_nil.mp hs] at hshm
          exact absurd hshm hb
    · intro e he
      by_cases hb : hm [] = true
      · rw [move_self hm [] hb] at he
        cases he
        refine ⟨List.suffix_rfl, hb, ?_⟩
        intro s hs _ hne
        exact absurd (List.suffix_nil.mp hs) hne
      · simp [move_to_robotpy_dir, hb] at he
  | cons x t ih =>
    cases t with
    | nil =>
      constructor
      · by_cases hb : hm [x] = true
        · rw [move_self hm [x] hb]
          simp only [Option.isSome_some, true_iff]
          exact ⟨[x], List.suffix_rfl, hb, Or.inl (by simp)⟩
        · have hnone : move_to_robotpy_dir hm [x] = none := by
            simp [move_to_robotpy_dir, hb]
          rw [hnone]
          constructor
          · intro habs; simp at habs
          · rintro ⟨s, hs, hshm, hne | hcon⟩
            · rcases List.suffix_cons_iff.mp hs with h1 | h1
              · rw [h1] at hshm; exact absurd hshm hb
              · exact absurd (List.suffix_nil.mp h1) hne
            · simp at hcon
      · intro e he
        by_cases hb : hm [x] = true
        · rw [move_self hm [x] hb] at he
          cases he
          refine ⟨List.suffix_rfl, hb, ?_⟩
          intro s hs hes hne
          exact absurd (suffix_antisymm hs hes) hne
        · simp [move_to_robotpy_dir, hb] at he
    | cons y r =>
      have hstep : hm (x :: y :: r) = false →
          move_to_robotpy_dir hm (x :: y :: r)
            = move_to_robotpy_dir hm (y :: r) := by
        intro hb
        simp [move_to_robotpy_dir, hb]
      constructor
      · by_cases hb : hm (x :: y :: r) = true
        · rw [move_self hm _ hb]
          simp only [Option.isSome_some, true_iff]
          exact ⟨x :: y :: r, List.suffix_rfl, hb, Or.inl (by simp)⟩
        · rw [hstep (by simpa using hb)]
          rw [ih.1]
          constructor
          · rintro ⟨s, hs, hshm, hne | hcon⟩
            · exact ⟨s, hs.trans (List.suffix_cons x (y :: r)), hshm, Or.inl hne⟩
            · simp at hcon
          · rintro ⟨s, hs, hshm, hne | hcon⟩
            · rcases List.suffix_cons_iff.mp hs with h1 | h1
              · rw [h1] at hshm; exact absurd hshm hb
              · exact ⟨s, h1, hshm, Or.inl hne⟩
            · simp at hcon
      · intro e he
        by_cases hb : hm (x :: y :: r) = true
        · rw [move_self hm _ hb] at he
          cases he
          refine ⟨List.suffix_rfl, hb, ?_⟩
          intro s hs hes hne
          exact absurd (suffix_antisymm hs hes) hne
        · rw [hstep (by simpa using hb)] at he
          obtain ⟨hsuf, hhm, hmin⟩ := ih.2 e he
          refine ⟨hsuf.trans (List.suffix_cons x (y :: r)), hhm, ?_⟩
          intro s hs hes hne
          rcases List.suffix_cons_iff.mp hs with h1 | h1
          · rw [h1]; simpa using hb
          · exact hmin s h1 hes hne

/-- Witness for C6 amended: starting at `/a/b` with the marker at `/a`,
the locator stops at `/a`, an ancestor bearing the marker. -/
theorem C6_amended_locator_witness :
    (["a"] : List String) <:+ ["b", "a"]
    ∧ (fun (d : List String) => decide (d = ["a"])) ["a"] = true :=
  ⟨((C6_amended_locator (fun d => decide (d = ["a"])) ["b", "a"]).2
      ["a"] (by decide)).1,
   ((C6_amended_locator (fun d => decide (d = ["a"])) ["b", "a"]).2
      ["a"] (by decide)).2.1⟩

/-- C7: when the base package is tracked, `update` with no named packages
passes to installation exactly the base package together with every tracked
requirement key (as a set), every package it ever passes to installation is
tracked in `requirements`, and the handler delegates to `install_package`
on exactly that list. -/
theorem C7_update_default_set (req : ConfigSection)
    (h : hasKey req "robotpy" = true) :
    (∀ p, p ∈ updatePkgs [] req ↔ (p = "robotpy" ∨ p ∈ req.map Prod.fst))
    ∧ (∀ (pkgs0 : List String) (p : String), p ∈ updatePkgs pkgs0 req →
        hasKey req p = true)
    ∧ (∀ (env : Env) (download : Bool) (c : Config),
        getSection c "requirements" = some req →
        update env download [] c
          = install_package env download (updatePkgs [] req) c) := by
  refine ⟨?_, ?_, ?_⟩
  · intro p
    constructor
    · intro hp
      unfold updatePkgs at hp
      simp only [List.isEmpty_nil, if_pos] at hp
      rcases List.mem_filter.mp hp with ⟨hmem, -⟩
      simpa using hmem
    · intro hp
      unfold updatePkgs
      simp only [List.isEmpty_nil, if_pos]
      apply List.mem_filter.mpr
      rcases hp with hp | hp
      · exact ⟨by simp [hp], by rw [hp]; exact h⟩
      · exact ⟨by simp [hp], (hasKey_iff_mem req p).mpr hp⟩
  · intro pkgs0 p hp
    unfold updatePkgs at hp
    exact (List.mem_filter.mp hp).2
  · intro env download c hg
    unfold update
    rw [hg]

/-- Witness for C7: with `robotpy` and `foo` tracked, the default update
set contains `foo`. -/
theorem C7_update_default_set_witness :
    "foo" ∈ updatePkgs [] [("robotpy", "1"), ("foo", "2")] :=
  ((C7_update_default_set [("robotpy", "1"), ("foo", "2")] (by decide)).1
    "foo").mpr (Or.inr (by decide))

/-- C8 counterexample: the claim says a package whose package-manager
upgrade succeeds is recorded in `requirements` whenever it is unrecorded
or newer; with pre-download disabled (`install --no-download`) the upgrade
of the unrecorded package `foo` succeeds yet `requirements` is left
untouched, because the recording step sits inside the download branch
(lines 106-116). -/
theorem C8_no_download_no_record :
    install envAll false ["foo"] [("requirements", [("robotpy", "1")])]
      = Outcome.ok [("requirements", [("robotpy", "1")])]
    ∧ envAll.pipInstallOk "foo" = true
    ∧ hasKey [("robotpy", "1")] "foo" = false := by
  decide

/-- C8 amended: with pre-download disabled `install_package` never touches
the configuration; with pre-download enabled, for a package whose upgrade
and pre-download both succeed and whose resolved version is listed, the
`requirements` entry is set to the resolved version exactly when the
package is unrecorded or the resolved version compares strictly newer, and
is left untouched otherwise — never overwritten by an equal or older
version. -/
theorem C8_amended_install_record :
    (∀ (env : Env) (pkgs : List String) (c : Config),
      install_package env false pkgs c = .ok c)
    ∧ (∀ (env : Env) (pkg v : String) (req : ConfigSection) (c : Config),
      env.pipInstallOk pkg = true → env.rpDownloadOk pkg = true →
      env.freezeOk = true → dictLookup env.freeze pkg = some v →
      getSection c "requirements" = some req →
      ((hasKey req pkg = false ∨ pyStrLt (getD req pkg) v = true) →
        install_package env true [pkg] c =
          .ok (setSection c "requirements" (setKey req pkg v)))
      ∧ (hasKey req pkg = true → pyStrLt (getD req pkg) v = false →
        install_package env true [pkg] c = .ok c)) := by
  constructor
  · intro env pkgs
    induction pkgs with
    | nil => intro c; rfl
    | cons pkg rest ih =>
      intro c
      simp only [install_package]
      by_cases h1 : env.pipInstallOk pkg = false
      · rw [if_pos h1]; exact ih c
      · rw [if_neg h1, if_pos trivial]; exact ih c
  · intro env pkg v req c hpip hdl hfr hlook hg
    have hred : install_package env true [pkg] c =
        (if !hasKey req pkg || pyStrLt (getD req pkg) v then
          Outcome.ok (setSection c "requirements" (setKey req pkg v))
        else Outcome.ok c) := by
      simp only [install_package]
      rw [if_neg (by simp [hpip]), if_neg (by simp), if_neg (by simp [hdl]),
        if_neg (by simp [hfr]), hg]
      simp only []
      rw [hlook]
    constructor
    · intro hcond
      have hc5 : (!hasKey req pkg || pyStrLt (getD req pkg) v) = true := by
        rcases hcond with h | h
        · simp [h]
        · simp [h]
      rw [hred, if_pos hc5]
    · intro hk hlt
      have hc5 : ¬((!hasKey req pkg || pyStrLt (getD req pkg) v) = true) := by
        simp [hk, hlt]
      rw [hred, if_neg hc5]

/-- Witness for C8 amended: with pre-download enabled, an unrecorded
package whose upgrade, pre-download and listing all succeed is recorded
at its resolved version. -/
theorem C8_amended_install_record_witness :
    install_package envAll true ["foo"] [("requirements", [("robotpy", "1")])]
      = Outcome.ok (setSection [("requirements", [("robotpy", "1")])]
          "requirements" (setKey [("robotpy", "1")] "foo" "2")) :=
  (C8_amended_install_record.2 envAll "foo" "2" [("robotpy", "1")]
    [("requirements", [("robotpy", "1")])] (by decide) (by decide)
    (by decide) (by decide) (by decide)).1 (Or.inl (by decide))

/-- C9: clearing `group.key` via `configure` removes the whole `group`
section when `key` was its last remaining entry, and removes only the
named key — leaving every other binding of the group intact — when other
keys remain. -/
theorem C9_clear_removes_empty_group (fld group name : String)
    (v : Option String) (c : Config)
    (hlen : 2 ≤ (splitDots fld).length)
    (hgroup : joinDots (splitDots fld).dropLast = group)
    (hname : (splitDots fld).getLastD "" = name)
    (hban1 : group ≠ "requirements")
    (hban2 : group ≠ "requirements.deployed")
    (hnd : (c.map Prod.fst).Nodup) :
    (∀ v0, getSection c group = some [(name, v0)] →
      configure ⟨fld, v, true⟩ c = .ok (delSection c group) ∧
      hasSection (delSection c group) group = false)
    ∧ (∀ sec, getSection c group = some sec → hasKey sec name = true →
        (delKey sec name).isEmpty = false →
        configure ⟨fld, v, true⟩ c
          = .ok (setSection c group (delKey sec name)) ∧
        getSection (setSection c group (delKey sec name)) group
          = some (delKey sec name) ∧
        ((sec.map Prod.fst).Nodup → lookupKey (delKey sec name) name = none) ∧
        (∀ k, k ≠ name → lookupKey (delKey sec name) k = lookupKey sec k)) := by
  have hred : configure ⟨fld, v, true⟩ c =
      (match getSection c group with
       | none => Outcome.ok c
       | some sec =>
         if hasKey sec name then
           if (delKey sec name).isEmpty then Outcome.ok (delSection c group)
           else Outcome.ok (setSection c group (delKey sec name))
         else Outcome.ok c) := by
    simp only [configure]
    rw [if_neg (by omega)]
    rw [hgroup, hname]
    rw [if_neg (not_or.mpr ⟨hban1, hban2⟩)]
    rw [if_pos trivial]
  constructor
  · intro v0 hg
    rw [hg] at hred
    simp only [] at hred
    rw [if_pos (by simp [hasKey, lookupKey])] at hred
    rw [if_pos (by simp [delKey])] at hred
    refine ⟨hred, ?_⟩
    simp [hasSection, getSection_delSection_self c group hnd]
  · intro sec hg hk hne
    rw [hg] at hred
    simp only [] at hred
    rw [if_pos hk] at hred
    rw [if_neg (by simp [hne])] at hred
    refine ⟨hred, getSection_setSection_self c group (delKey sec name), ?_, ?_⟩
    · intro hsnd
      exact lookupKey_delKey_self sec name hsnd
    · intro k hkne
      exact lookupKey_delKey_ne sec name k hkne

/-- Witness for C9: clearing the last remaining key of the `auth` group
removes the whole group. -/
theorem C9_clear_removes_empty_group_witness :
    configure ⟨"auth.hostname", none, true⟩ [("auth", [("hostname", "h")])]
      = Outcome.ok (delSection [("auth", [("hostname", "h")])] "auth")
    ∧ hasSection (delSection [("auth", [("hostname", "h")])] "auth") "auth"
      = false :=
  (C9_clear_removes_empty_group "auth.hostname" "auth" "hostname" none
    [("auth", [("hostname", "h")])] (by decide) (by decide) (by decide)
    (by decide) (by decide) (by decide)).1 "h" (by decide)

/-- C10 counterexample: the claim says re-initializing over an existing
marker leaves `requirements` entirely unchanged; with an additionally
requested package (`--with foo`) the handler still installs it afterwards
(line 197), adding `foo` to `requirements`. -/
theorem C10_reinit_with_packages_changes_requirements :
    init envAll none true ⟨"robot.py", none, ["foo"]⟩
        [("requirements", [("robotpy", "1")])]
      = Outcome.ok [("requirements", [("robotpy", "1"), ("foo", "2")]),
          ("execution", [("main", "robot.py")])]
    ∧ getSection [("requirements", [("robotpy", "1"), ("foo", "2")]),
          ("execution", [("main", "robot.py")])] "requirements"
      ≠ getSection [("requirements", [("robotpy", "1")])] "requirements" := by
  decide

/-- C10 amended: re-initializing over an existing marker never touches
`requirements` in the re-init branch itself and overwrites `execution`
with the requested entry file; when no additional packages are requested
the whole handler leaves `requirements` unchanged. -/
theorem C10_amended_reinit_frame (env : Env)
    (gp : Option (List (String × String))) (a : InitArgs) (c c1 : Config)
    (hpk : a.packages = []) (h : init env gp true a c = .ok c1) :
    getSection c1 "requirements" = getSection c "requirements" ∧
    getSection c1 "execution" = some [("main", a.main)] := by
  unfold init initReqStep at h
  rw [if_pos rfl] at h
  simp only [Outcome.bind] at h
  rw [hpk] at h
  simp only [List.map_nil] at h
  by_cases h1 : env.rpDownloadPythonOk = false
  · rw [if_pos h1] at h; simp at h
  · rw [if_neg h1] at h
    by_cases h2 : env.rpDownloadOk "robotpy" = false
    · rw [if_pos h2] at h; simp at h
    · rw [if_neg h2] at h
      simp only [install_package] at h
      cases ha : a.host with
      | some hst =>
        rw [ha] at h
        simp only [] at h
        cases h
        constructor
        · rw [getSection_setSection_ne _ "auth" "requirements" _ (by decide),
            getSection_setSection_ne _ "execution" "requirements" _ (by decide)]
        · rw [getSection_setSection_ne _ "auth" "execution" _ (by decide)]
          exact getSection_setSection_self c "execution" [("main", a.main)]
      | none =>
        rw [ha] at h
        simp only [] at h
        cases h
        constructor
        · rw [getSection_setSection_ne _ "execution" "requirements" _ (by decide)]
        · exact getSection_setSection_self c "execution" [("main", a.main)]

/-- Witness for C10 amended: re-initializing with no extra packages keeps
`requirements` and overwrites `execution`. -/
theorem C10_amended_reinit_frame_witness :
    getSection [("requirements", [("robotpy", "1")]),
        ("execution", [("main", "robot.py")])] "requirements"
      = getSection [("requirements", [("robotpy", "1")])] "requirements"
    ∧ getSection [("requirements", [("robotpy", "1")]),
        ("execution", [("main", "robot.py")])] "execution"
      = some [("main", "robot.py")] :=
  C10_amended_reinit_frame envAll none ⟨"robot.py", none, []⟩
    [("requirements", [("robotpy", "1")])]
    [("requirements", [("robotpy", "1")]), ("execution", [("main", "robot.py")])]
    rfl (by decide)

end RobotPy
